import Mathlib

/-!
Verification of the V2I security pipeline core (message queue, validator,
escalation gateway, analyzer score combination) against its specification.

The definitions below are a shallow embedding of the Python sources:
`message_queue.py` (PriorityMessageQueue and its statistics),
`message_handler.py` (MessageValidator), `api_gateway.py` (result
combination in the escalation pipeline) and `analyzer.py` (final anomaly
score).  Machine floats are modelled as rationals, Python dicts as
association lists, and the per-class `asyncio.PriorityQueue` as a list
from which `get` removes the least `(priority_value, message_id)` pair,
exactly as the `heapq`-backed queue does.
-/

/-- Priority levels of `message_queue.MessagePriority` (CRITICAL = 0 .. LOW = 3). -/
inductive MessagePriority where
  | CRITICAL
  | HIGH
  | MEDIUM
  | LOW
deriving DecidableEq

/-- `MessagePriority.value`, the integer payload of the Python enum. -/
def MessagePriority.value : MessagePriority → Nat
  | .CRITICAL => 0
  | .HIGH => 1
  | .MEDIUM => 2
  | .LOW => 3

/-- Lifecycle states of `message_queue.MessageState`. -/
inductive MessageState where
  | PENDING
  | PROCESSING
  | COMPLETED
  | FAILED
  | RETRYING
deriving DecidableEq

/-- `message_queue.QueueMessage`: the lifecycle wrapper stored in
`PriorityMessageQueue.messages`.  Timestamps are abstract clock ticks
(the Python code reads `datetime.now()`; the tick is supplied to each
operation as a parameter `now`). -/
structure QueueMessage where
  id : String
  content : String
  priority : MessagePriority
  timestamp : Nat
  retries : Nat := 0
  processing_started : Option Nat := none
  processing_completed : Option Nat := none
  error : Option String := none

/-- The five per-state counters of `QueueStats.states` (a `defaultdict(int)`,
hence `Int`-valued: the code may in principle decrement past zero). -/
structure StateCounts where
  pending : Int := 0
  processing : Int := 0
  completed : Int := 0
  failed : Int := 0
  retrying : Int := 0

/-- Read the counter of one state. -/
def StateCounts.get (c : StateCounts) : MessageState → Int
  | .PENDING => c.pending
  | .PROCESSING => c.processing
  | .COMPLETED => c.completed
  | .FAILED => c.failed
  | .RETRYING => c.retrying

/-- Add `d` to the counter of one state. -/
def StateCounts.add (c : StateCounts) (st : MessageState) (d : Int) : StateCounts :=
  match st with
  | .PENDING => { c with pending := c.pending + d }
  | .PROCESSING => { c with processing := c.processing + d }
  | .COMPLETED => { c with completed := c.completed + d }
  | .FAILED => { c with failed := c.failed + d }
  | .RETRYING => { c with retrying := c.retrying + d }

/-- The four per-priority counters of `QueueStats.priority_counts`. -/
structure PriorityCounts where
  critical : Nat := 0
  high : Nat := 0
  medium : Nat := 0
  low : Nat := 0

/-- Add one to the counter of one priority. -/
def PriorityCounts.bump (c : PriorityCounts) : MessagePriority → PriorityCounts
  | .CRITICAL => { c with critical := c.critical + 1 }
  | .HIGH => { c with high := c.high + 1 }
  | .MEDIUM => { c with medium := c.medium + 1 }
  | .LOW => { c with low := c.low + 1 }

/-- `message_queue.QueueStats`. -/
structure QueueStats where
  total_received : Nat := 0
  total_processed : Nat := 0
  total_failed : Nat := 0
  total_retried : Nat := 0
  processing_times : List Nat := []
  states : StateCounts := {}
  priority_counts : PriorityCounts := {}

/-- `QueueStats.update_processing_time`: append the duration, keep at most
1000 samples by popping the oldest. -/
def QueueStats.update_processing_time (s : QueueStats) (duration : Nat) : QueueStats :=
  let ts := s.processing_times ++ [duration]
  { s with processing_times := if ts.length > 1000 then ts.drop 1 else ts }

/-- The four per-priority queues (`PriorityMessageQueue.queues`).  Each holds
the `(priority.value, message_id)` entries put into the corresponding
`asyncio.PriorityQueue`, in arrival order; `get` removes the least entry. -/
structure Queues where
  critical : List (Nat × String) := []
  high : List (Nat × String) := []
  medium : List (Nat × String) := []
  low : List (Nat × String) := []

/-- Contents of the queue of one priority class. -/
def Queues.get (qs : Queues) : MessagePriority → List (Nat × String)
  | .CRITICAL => qs.critical
  | .HIGH => qs.high
  | .MEDIUM => qs.medium
  | .LOW => qs.low

/-- Replace the contents of the queue of one priority class. -/
def Queues.set (qs : Queues) (p : MessagePriority) (l : List (Nat × String)) : Queues :=
  match p with
  | .CRITICAL => { qs with critical := l }
  | .HIGH => { qs with high := l }
  | .MEDIUM => { qs with medium := l }
  | .LOW => { qs with low := l }

/-- Python dict lookup on an association list. -/
def lookup {α : Type} : List (String × α) → String → Option α
  | [], _ => none
  | (k, v) :: rest, key => if key = k then some v else lookup rest key

/-- Python dict assignment on an association list: replace the binding if the
key is present, otherwise append it (insertion order). -/
def setA {α : Type} : List (String × α) → String → α → List (String × α)
  | [], key, v => [(key, v)]
  | (k, w) :: rest, key, v =>
      if key = k then (key, v) :: rest else (k, w) :: setA rest key v

/-- Python string comparison: lexicographic on code points. -/
def strLt : List Char → List Char → Bool
  | [], [] => false
  | [], _ :: _ => true
  | _ :: _, [] => false
  | a :: as, b :: bs =>
      if a.toNat < b.toNat then true
      else if b.toNat < a.toNat then false
      else strLt as bs

/-- Lexicographic comparison of heap entries, as Python compares the
`(priority_value, message_id)` tuples stored in the queue. -/
def entryLe (a b : Nat × String) : Bool :=
  if a.1 < b.1 then true
  else if b.1 < a.1 then false
  else if strLt a.2.data b.2.data then true
  else if strLt b.2.data a.2.data then false
  else true

/-- Remove the least entry from the multiset held by an
`asyncio.PriorityQueue` (what its `get` returns after the heap pops). -/
def popMin : List (Nat × String) → Option ((Nat × String) × List (Nat × String))
  | [] => none
  | x :: xs =>
      match popMin xs with
      | none => some (x, [])
      | some (m, rest) =>
          if entryLe x m then some (x, xs) else some (m, x :: rest)

/-- `message_queue.PriorityMessageQueue`: configuration, per-class queues,
message map, state map and statistics. -/
structure PMQueue where
  max_size : Nat := 10000
  max_retries : Nat := 3
  processing_timeout : Nat := 30
  batch_size : Nat := 10
  queues : Queues := {}
  messages : List (String × QueueMessage) := []
  message_states : List (String × MessageState) := []
  stats : QueueStats := {}

/-- A freshly constructed queue with the given `max_retries`. -/
def initQ (max_retries : Nat) : PMQueue := { max_retries := max_retries }

/-- `PriorityMessageQueue._update_message_state`: decrement the bucket of the
old state when the id is tracked, record the new state, increment its
bucket. -/
def update_message_state (q : PMQueue) (message_id : String) (new_state : MessageState) :
    PMQueue :=
  let stats1 :=
    match lookup q.message_states message_id with
    | some old_state => { q.stats with states := q.stats.states.add old_state (-1) }
    | none => q.stats
  { q with
    message_states := setA q.message_states message_id new_state
    stats := { stats1 with states := stats1.states.add new_state 1 } }

/-- `PriorityMessageQueue.enqueue`.  In Python the id is
`str(abs(hash(...)))`; it is passed in here as the parameter `message_id`
(an arbitrary digit string as far as the queue logic is concerned). -/
def enqueue (q : PMQueue) (now : Nat) (message : String) (message_id : String)
    (priority : MessagePriority) : PMQueue :=
  let queue_message : QueueMessage :=
    { id := message_id, content := message, priority := priority, timestamp := now }
  { q with
    messages := setA q.messages message_id queue_message
    message_states := setA q.message_states message_id .PENDING
    queues := q.queues.set priority
      (q.queues.get priority ++ [(priority.value, message_id)])
    stats := { q.stats with
      total_received := q.stats.total_received + 1
      priority_counts := q.stats.priority_counts.bump priority
      states := q.stats.states.add .PENDING 1 } }

/-- The scan of `PriorityMessageQueue.dequeue` over the remaining priority
classes.  When the popped id is missing from `messages` the Python
`KeyError` is caught, the entry stays consumed and the loop moves on to the
next class. -/
def dequeueFrom (q : PMQueue) (now : Nat) :
    List MessagePriority → Option QueueMessage × PMQueue
  | [] => (none, q)
  | p :: rest =>
      match popMin (q.queues.get p) with
      | none => dequeueFrom q now rest
      | some (entry, remaining) =>
          let message_id := entry.2
          let q1 := { q with queues := q.queues.set p remaining }
          match lookup q1.messages message_id with
          | none => dequeueFrom q1 now rest
          | some message =>
              let q2 := update_message_state q1 message_id .PROCESSING
              let message1 := { message with processing_started := some now }
              let q3 := { q2 with messages := setA q2.messages message_id message1 }
              (some message1, q3)

/-- `PriorityMessageQueue.dequeue`: scan CRITICAL, HIGH, MEDIUM, LOW in order
and take the least entry of the first non-empty class. -/
def dequeue (q : PMQueue) (now : Nat) : Option QueueMessage × PMQueue :=
  dequeueFrom q now [.CRITICAL, .HIGH, .MEDIUM, .LOW]

/-- `PriorityMessageQueue.mark_completed`.  Returns `none` for the Python
`TypeError` raised when `processing_started` is still `None` (the code
subtracts it from `datetime.now()` unguarded); untracked ids fall through
the `if message_id in self.messages` guard and leave the queue unchanged. -/
def mark_completed (q : PMQueue) (now : Nat) (message_id : String) : Option PMQueue :=
  match lookup q.messages message_id with
  | none => some q
  | some message =>
      match message.processing_started with
      | none => none
      | some started =>
          let message1 := { message with processing_completed := some now }
          let processing_time := now - started
          let stats1 := q.stats.update_processing_time processing_time
          let stats2 := { stats1 with total_processed := stats1.total_processed + 1 }
          let q1 := { q with messages := setA q.messages message_id message1, stats := stats2 }
          some (update_message_state q1 message_id .COMPLETED)

/-- `PriorityMessageQueue.mark_failed`: store the error; with retries
remaining increment the count, move to RETRYING and re-queue at the same
priority, else move to FAILED. -/
def mark_failed (q : PMQueue) (message_id : String) (error : String) : PMQueue :=
  match lookup q.messages message_id with
  | none => q
  | some message =>
      let message1 := { message with error := some error }
      if message1.retries < q.max_retries then
        let message2 := { message1 with retries := message1.retries + 1 }
        let q1 := { q with messages := setA q.messages message_id message2 }
        let q2 := update_message_state q1 message_id .RETRYING
        let q3 := { q2 with
          queues := q2.queues.set message2.priority
            (q2.queues.get message2.priority ++ [(message2.priority.value, message_id)]) }
        { q3 with stats := { q3.stats with total_retried := q3.stats.total_retried + 1 } }
      else
        let q1 := { q with messages := setA q.messages message_id message1 }
        let q2 := update_message_state q1 message_id .FAILED
        { q2 with stats := { q2.stats with total_failed := q2.stats.total_failed + 1 } }

/-- External operations on the queue (the public interface exercised by the
claims). -/
inductive QOp where
  | enqueue (content : String) (message_id : String) (priority : MessagePriority)
  | dequeue
  | mark_completed (message_id : String)
  | mark_failed (message_id : String) (error : String)

/-- Apply one operation at clock tick `now`; `none` is an uncaught Python
exception. -/
def applyOp (q : PMQueue) (now : Nat) : QOp → Option PMQueue
  | .enqueue content message_id priority => some (enqueue q now content message_id priority)
  | .dequeue => some (dequeue q now).2
  | .mark_completed message_id => mark_completed q now message_id
  | .mark_failed message_id error => some (mark_failed q message_id error)

/-- Run a list of operations, the clock advancing by one tick per call. -/
def runFrom (q : PMQueue) (t : Nat) : List QOp → Option PMQueue
  | [] => some q
  | op :: ops =>
      match applyOp q t op with
      | none => none
      | some q1 => runFrom q1 (t + 1) ops

/-- Run a list of operations from tick 0. -/
def run (q : PMQueue) (ops : List QOp) : Option PMQueue := runFrom q 0 ops

/-- Number of tracked messages currently in a given state. -/
def countState (l : List (String × MessageState)) (st : MessageState) : Nat :=
  (l.filter (fun p => decide (p.2 = st))).length

/-- The transition relation asserted by the specification (claim C2):
PENDING→PROCESSING, PROCESSING→COMPLETED, PROCESSING→RETRYING,
RETRYING→PENDING, PROCESSING→FAILED. -/
def allowedSpec (a b : MessageState) : Prop :=
  (a = .PENDING ∧ b = .PROCESSING) ∨
  (a = .PROCESSING ∧ b = .COMPLETED) ∨
  (a = .PROCESSING ∧ b = .RETRYING) ∨
  (a = .RETRYING ∧ b = .PENDING) ∨
  (a = .PROCESSING ∧ b = .FAILED)

/-- The transition relation the code actually implements: a retried message
stays RETRYING until the next dequeue moves it straight to PROCESSING. -/
def allowedCode (a b : MessageState) : Prop :=
  (a = .PENDING ∧ b = .PROCESSING) ∨
  (a = .RETRYING ∧ b = .PROCESSING) ∨
  (a = .PROCESSING ∧ b = .COMPLETED) ∨
  (a = .PROCESSING ∧ b = .RETRYING) ∨
  (a = .PROCESSING ∧ b = .FAILED)

/-- C1: two MEDIUM messages enqueued in the order id "b", then id "a";
`dequeue` returns "a" first.  The per-class `asyncio.PriorityQueue` orders
its `(priority_value, message_id)` tuples by the message-id string when the
first components tie, so within a priority class the dequeue order is
lexicographic in the generated id, not the enqueue (FIFO) order the claim
states. -/
theorem c1_same_class_dequeue_not_fifo :
    ((dequeue (enqueue (enqueue (initQ 3) 0 "x" "b" .MEDIUM) 1 "y" "a" .MEDIUM) 2).1.map
      QueueMessage.id) = some "a" := by decide

/-- C2 counterexample: after enqueue, dequeue and one failing attempt the
message "a" is RETRYING; the very next dequeue moves it to PROCESSING.
The pair (RETRYING, PROCESSING) is outside the transition relation the
claim asserts, and in particular the message never re-enters PENDING
between RETRYING and PROCESSING. -/
theorem c2_retrying_skips_pending_counterexample :
    ((run (initQ 3) [.enqueue "m" "a" .MEDIUM, .dequeue, .mark_failed "a" "boom"]).map
        (fun q => lookup q.message_states "a") = some (some .RETRYING)) ∧
    ((run (initQ 3) [.enqueue "m" "a" .MEDIUM, .dequeue, .mark_failed "a" "boom",
        .dequeue]).map
        (fun q => lookup q.message_states "a") = some (some .PROCESSING)) ∧
    ¬ allowedSpec .RETRYING .PROCESSING := by
  refine ⟨rfl, rfl, ?_⟩
  intro h
  rcases h with ⟨h, _⟩ | ⟨h, _⟩ | ⟨h, _⟩ | ⟨_, h⟩ | ⟨h, _⟩ <;> exact absurd h (by decide)

/-- C4 counterexample: the operation sequence enqueue, dequeue,
mark_completed, mark_completed leaves total_received = 1 but
total_processed = 2, total_failed = 0 and no message in a non-terminal
state, so received is not processed + failed + in-flight. -/
theorem c4_accounting_counterexample :
    ((run (initQ 3) [.enqueue "m" "a" .MEDIUM, .dequeue, .mark_completed "a",
        .mark_completed "a"]).map
        (fun q => (q.stats.total_received, q.stats.total_processed, q.stats.total_failed,
          countState q.message_states .PENDING + countState q.message_states .PROCESSING +
            countState q.message_states .RETRYING)) = some (1, 2, 0, 0)) ∧
    (1 : Nat) ≠ 2 + 0 + 0 := by
  exact ⟨rfl, by decide⟩

/-- C5: calling mark_completed twice on the same COMPLETED id double-counts:
the first call brings total_processed to 1, the second call to 2 and appends
a second processing-time sample, so the second call is not a no-op. -/
theorem c5_double_mark_completed_double_counts :
    ((run (initQ 3) [.enqueue "m" "a" .MEDIUM, .dequeue, .mark_completed "a"]).map
        (fun q => (q.stats.total_processed, q.stats.processing_times.length)) = some (1, 1)) ∧
    ((run (initQ 3) [.enqueue "m" "a" .MEDIUM, .dequeue, .mark_completed "a",
        .mark_completed "a"]).map
        (fun q => (q.stats.total_processed, q.stats.processing_times.length)) = some (2, 2)) := by
  exact ⟨rfl, rfl⟩

/-- C10: mark_completed and mark_failed on an id that is not tracked in
`messages` return without raising and leave the whole queue state
unchanged. -/
theorem c10_untracked_mark_noop (q : PMQueue) (now : Nat) (message_id error : String)
    (h : lookup q.messages message_id = none) :
    mark_completed q now message_id = some q ∧ mark_failed q message_id error = q := by
  constructor
  · unfold mark_completed
    rw [h]
  · unfold mark_failed
    rw [h]

/-- Witness for C10 at a concrete queue and id. -/
theorem c10_untracked_mark_noop_witness :
    lookup (initQ 3).messages "z" = none ∧
    mark_completed (initQ 3) 0 "z" = some (initQ 3) ∧
    mark_failed (initQ 3) "z" "err" = initQ 3 :=
  ⟨rfl, (c10_untracked_mark_noop (initQ 3) 0 "z" "err" rfl).1,
    (c10_untracked_mark_noop (initQ 3) 0 "z" "err" rfl).2⟩

/-- The operation sequence of a message whose every processing attempt
fails: `n` rounds of dequeue followed by mark_failed. -/
def c3Cycles (message_id error : String) : Nat → List QOp
  | 0 => []
  | n + 1 => .dequeue :: .mark_failed message_id error :: c3Cycles message_id error n

/-- Queue state after enqueueing one message and letting it fail `k` times
(for `k` at most `max_retries`): the message sits re-queued with `k`
retries, PENDING before the first attempt and RETRYING afterwards. -/
def c3Mid (R : Nat) (cont message_id error : String) (p : MessagePriority) (k : Nat) :
    PMQueue :=
  { max_retries := R
    queues := Queues.set {} p [(p.value, message_id)]
    messages := [(message_id,
      { id := message_id, content := cont, priority := p, timestamp := 0,
        retries := k,
        processing_started := if k = 0 then none else some (2 * k - 1),
        processing_completed := none,
        error := if k = 0 then none else some error })]
    message_states := [(message_id, if k = 0 then .PENDING else .RETRYING)]
    stats := {
      total_received := 1
      total_retried := k
      states := if k = 0 then { pending := 1 } else { retrying := 1 }
      priority_counts := PriorityCounts.bump {} p } }

/-- Queue state after the final, retries-exhausted mark_failed. -/
def c3Final (R : Nat) (cont message_id error : String) (p : MessagePriority) : PMQueue :=
  { max_retries := R
    queues := {}
    messages := [(message_id,
      { id := message_id, content := cont, priority := p, timestamp := 0,
        retries := R,
        processing_started := some (2 * R + 1),
        processing_completed := none,
        error := some error })]
    message_states := [(message_id, .FAILED)]
    stats := {
      total_received := 1
      total_retried := R
      total_failed := 1
      states := { failed := 1 }
      priority_counts := PriorityCounts.bump {} p } }

theorem c3_enqueue_eq (R : Nat) (cont message_id error : String) (p : MessagePriority) :
    enqueue (initQ R) 0 cont message_id p = c3Mid R cont message_id error p 0 := by
  cases p <;> rfl

theorem c3_step (R : Nat) (cont message_id error : String) (p : MessagePriority) (k : Nat)
    (hk : k < R) (rest : List QOp) :
    runFrom (c3Mid R cont message_id error p k) (2 * k + 1)
        (.dequeue :: .mark_failed message_id error :: rest) =
      runFrom (c3Mid R cont message_id error p (k + 1)) (2 * (k + 1) + 1) rest := by
  rcases Nat.eq_zero_or_pos k with hk0 | hkpos
  · subst hk0
    cases p <;>
      simp [c3Mid, runFrom, applyOp, dequeue, dequeueFrom, popMin, Queues.get, Queues.set,
        lookup, setA, update_message_state, mark_failed, StateCounts.add, hk]
  · obtain ⟨k, rfl⟩ : ∃ n, k = n + 1 := ⟨k - 1, by omega⟩
    cases p <;>
      simp [c3Mid, runFrom, applyOp, dequeue, dequeueFrom, popMin, Queues.get, Queues.set,
        lookup, setA, update_message_state, mark_failed, StateCounts.add, hk] <;>
      rw [show (2 * (k + 1 + 1) - 1 : Nat) = 2 * (k + 1) + 1 from by omega,
        show (2 * (k + 1 + 1) + 1 : Nat) = 2 * (k + 1) + 1 + 1 + 1 from by omega]

theorem c3_last (R : Nat) (cont message_id error : String) (p : MessagePriority)
    (rest : List QOp) :
    runFrom (c3Mid R cont message_id error p R) (2 * R + 1)
        (.dequeue :: .mark_failed message_id error :: rest) =
      runFrom (c3Final R cont message_id error p) (2 * R + 3) rest := by
  rcases Nat.eq_zero_or_pos R with hR0 | hRpos
  · subst hR0
    cases p <;>
      simp [c3Mid, c3Final, runFrom, applyOp, dequeue, dequeueFrom, popMin, Queues.get,
        Queues.set, lookup, setA, update_message_state, mark_failed, StateCounts.add]
  · obtain ⟨n, rfl⟩ : ∃ n, R = n + 1 := ⟨R - 1, by omega⟩
    cases p <;>
      simp [c3Mid, c3Final, runFrom, applyOp, dequeue, dequeueFrom, popMin, Queues.get,
        Queues.set, lookup, setA, update_message_state, mark_failed, StateCounts.add]

theorem c3_cycles_run (R : Nat) (cont message_id error : String) (p : MessagePriority) :
    ∀ j k, k + j = R →
      runFrom (c3Mid R cont message_id error p k) (2 * k + 1)
          (c3Cycles message_id error (j + 1)) =
        some (c3Final R cont message_id error p) := by
  intro j
  induction j with
  | zero =>
      intro k hk
      have hk' : k = R := by omega
      rw [hk']
      rw [show c3Cycles message_id error 1 = [.dequeue, .mark_failed message_id error] from rfl]
      rw [c3_last R cont message_id error p []]
      rfl
  | succ j ih =>
      intro k hk
      have hkR : k < R := by omega
      rw [show c3Cycles message_id error (j + 1 + 1) =
        .dequeue :: .mark_failed message_id error :: c3Cycles message_id error (j + 1) from rfl]
      rw [c3_step R cont message_id error p k hkR]
      exact ih (k + 1) (by omega)

/-- C3: a message whose every attempt ends in mark_failed is retried exactly
max_retries times and then reaches FAILED: after max_retries + 1 failing
rounds the stored message has retry count max_retries, its state is FAILED,
total_retried = max_retries, total_failed = 1 and total_processed = 0 (it is
never COMPLETED). -/
theorem c3_retry_bound (R : Nat) (cont message_id error : String) (p : MessagePriority) :
    ∃ qF,
      run (initQ R) (.enqueue cont message_id p :: c3Cycles message_id error (R + 1)) =
          some qF ∧
      lookup qF.message_states message_id = some .FAILED ∧
      qF.stats.total_retried = R ∧
      qF.stats.total_failed = 1 ∧
      qF.stats.total_processed = 0 ∧
      (lookup qF.messages message_id).map QueueMessage.retries = some R ∧
      (lookup qF.messages message_id).map QueueMessage.processing_completed = some none := by
  refine ⟨c3Final R cont message_id error p, ?_, ?_, rfl, rfl, rfl, ?_, ?_⟩
  · show runFrom (initQ R) 0 (_ :: _) = _
    rw [show runFrom (initQ R) 0
        (.enqueue cont message_id p :: c3Cycles message_id error (R + 1)) =
      runFrom (enqueue (initQ R) 0 cont message_id p) 1
        (c3Cycles message_id error (R + 1)) from rfl]
    rw [c3_enqueue_eq R cont message_id error p]
    have := c3_cycles_run R cont message_id error p R 0 (by omega)
    simpa using this
  · simp [c3Final, lookup]
  · simp [c3Final, lookup]
  · simp [c3Final, lookup]

/-- Keys of an association list (a Python dict). -/
def keysOf {α : Type} (l : List (String × α)) : List String := l.map Prod.fst

theorem lookup_setA_self {α : Type} (l : List (String × α)) (k : String) (v : α) :
    lookup (setA l k v) k = some v := by
  induction l with
  | nil => simp [setA, lookup]
  | cons hd tl ih =>
      obtain ⟨k1, w⟩ := hd
      by_cases h : k = k1
      · subst h
        simp [setA, lookup]
      · simp [setA, lookup, h, ih]

theorem lookup_setA_ne {α : Type} (l : List (String × α)) (k key : String) (v : α)
    (h : key ≠ k) : lookup (setA l k v) key = lookup l key := by
  induction l with
  | nil => simp [setA, lookup, h]
  | cons hd tl ih =>
      obtain ⟨k1, w⟩ := hd
      by_cases h1 : k = k1
      · subst h1
        simp [setA, lookup, h]
      · simp [setA, lookup, h1, ih]

theorem mem_keysOf_iff_lookup {α : Type} (l : List (String × α)) (k : String) :
    k ∈ keysOf l ↔ ∃ v, lookup l k = some v := by
  induction l with
  | nil => simp [keysOf, lookup]
  | cons hd tl ih =>
      obtain ⟨k1, w⟩ := hd
      by_cases h : k = k1
      · subst h
        simp [keysOf, lookup]
      · simp [keysOf, lookup, h] at ih ⊢
        exact ih

theorem lookup_none_iff {α : Type} (l : List (String × α)) (k : String) :
    lookup l k = none ↔ k ∉ keysOf l := by
  rw [mem_keysOf_iff_lookup]
  cases h : lookup l k <;> simp

theorem keysOf_setA_of_mem {α : Type} (l : List (String × α)) (k : String) (v : α)
    (h : k ∈ keysOf l) : keysOf (setA l k v) = keysOf l := by
  induction l with
  | nil => simp [keysOf] at h
  | cons hd tl ih =>
      obtain ⟨k1, w⟩ := hd
      by_cases h1 : k = k1
      · subst h1
        simp [setA, keysOf]
      · simp only [keysOf, List.map_cons] at h
        have h2 : k ∈ keysOf tl := by
          rcases List.mem_cons.mp h with h3 | h3
          · exact absurd h3 h1
          · exact h3
        have h4 := ih h2
        simp only [keysOf, List.map_cons] at h4 ⊢
        simp [setA, h1, h4]

theorem keysOf_setA_of_not_mem {α : Type} (l : List (String × α)) (k : String) (v : α)
    (h : k ∉ keysOf l) : keysOf (setA l k v) = keysOf l ++ [k] := by
  induction l with
  | nil => simp [setA, keysOf]
  | cons hd tl ih =>
      obtain ⟨k1, w⟩ := hd
      simp only [keysOf, List.map_cons] at h
      have h1 : k ≠ k1 := fun e => h (by rw [e]; exact List.mem_cons_self k1 _)
      have h2 : k ∉ keysOf tl := fun m => h (List.mem_cons_of_mem _ m)
      have h4 := ih h2
      simp only [keysOf, List.map_cons] at h4 ⊢
      simp [setA, h1, h4]

theorem countState_cons (k : String) (w : MessageState) (tl : List (String × MessageState))
    (st : MessageState) :
    countState ((k, w) :: tl) st = (if w = st then 1 else 0) + countState tl st := by
  by_cases h : w = st <;> simp [countState, List.filter_cons, h] <;> omega

theorem countState_setA (l : List (String × MessageState)) (k : String)
    (old v st : MessageState) (h : lookup l k = some old) :
    countState (setA l k v) st + (if old = st then 1 else 0) =
      countState l st + (if v = st then 1 else 0) := by
  induction l with
  | nil => simp [lookup] at h
  | cons hd tl ih =>
      obtain ⟨k1, w⟩ := hd
      by_cases h1 : k = k1
      · subst h1
        simp [lookup] at h
        subst h
        simp [setA, countState_cons]
        omega
      · simp [lookup, h1] at h
        have := ih h
        simp [setA, h1, countState_cons]
        omega

theorem countState_setA_fresh (l : List (String × MessageState)) (k : String)
    (v st : MessageState) (h : lookup l k = none) :
    countState (setA l k v) st = countState l st + (if v = st then 1 else 0) := by
  induction l with
  | nil => by_cases hv : v = st <;> simp [setA, countState, List.filter_cons, hv]
  | cons hd tl ih =>
      obtain ⟨k1, w⟩ := hd
      by_cases h1 : k = k1
      · subst h1
        simp [lookup] at h
      · simp [lookup, h1] at h
        have := ih h
        simp [setA, h1, countState_cons]
        omega

theorem StateCounts.get_add (c : StateCounts) (st : MessageState) (d : Int)
    (st' : MessageState) :
    (c.add st d).get st' = c.get st' + (if st = st' then d else 0) := by
  cases st <;> cases st' <;> simp [StateCounts.add, StateCounts.get]

theorem Queues.get_set (qs : Queues) (p : MessagePriority) (l : List (Nat × String))
    (p' : MessagePriority) :
    (qs.set p l).get p' = if p = p' then l else qs.get p' := by
  cases p <;> cases p' <;> simp [Queues.set, Queues.get]

/-- Occurrences of a message id among the entries of one queue. -/
def occL (l : List (Nat × String)) (id : String) : Nat :=
  (l.filter (fun e => decide (e.2 = id))).length

/-- Occurrences of a message id across all four priority queues. -/
def occQs (qs : Queues) (id : String) : Nat :=
  occL (qs.get .CRITICAL) id + occL (qs.get .HIGH) id +
    occL (qs.get .MEDIUM) id + occL (qs.get .LOW) id

theorem occL_append (l1 l2 : List (Nat × String)) (id : String) :
    occL (l1 ++ l2) id = occL l1 id + occL l2 id := by
  simp [occL, List.filter_append]

theorem occL_cons (e : Nat × String) (l : List (Nat × String)) (id : String) :
    occL (e :: l) id = (if e.2 = id then 1 else 0) + occL l id := by
  by_cases h : e.2 = id <;> simp [occL, List.filter_cons, h] <;> omega

theorem occL_pos_of_mem (l : List (Nat × String)) (e : Nat × String) (id : String)
    (he : e ∈ l) (hid : e.2 = id) : 0 < occL l id := by
  have h1 : e ∈ l.filter (fun e => decide (e.2 = id)) :=
    List.mem_filter.mpr ⟨he, by simp [hid]⟩
  exact List.length_pos.mpr (List.ne_nil_of_mem h1)

theorem occL_eq_zero (l : List (Nat × String)) (id : String)
    (h : ∀ e ∈ l, e.2 ≠ id) : occL l id = 0 := by
  induction l with
  | nil => rfl
  | cons e tl ih =>
      rw [occL_cons, if_neg (h e (List.mem_cons_self e tl)), Nat.zero_add]
      exact ih fun e' he' => h e' (List.mem_cons_of_mem _ he')

theorem occQs_set_eq (qs : Queues) (p : MessagePriority) (l' : List (Nat × String))
    (id : String) :
    occQs (qs.set p l') id + occL (qs.get p) id = occQs qs id + occL l' id := by
  cases p <;> simp [occQs, Queues.get, Queues.set] <;> omega

theorem occL_le_occQs (qs : Queues) (p : MessagePriority) (id : String) :
    occL (qs.get p) id ≤ occQs qs id := by
  cases p <;> simp [occQs, Queues.get] <;> omega

theorem popMin_eq_none (l : List (Nat × String)) (h : popMin l = none) : l = [] := by
  cases l with
  | nil => rfl
  | cons x xs =>
      rw [popMin] at h
      cases hx : popMin xs with
      | none => rw [hx] at h; simp at h
      | some mr =>
          obtain ⟨m, r⟩ := mr
          rw [hx] at h
          by_cases hle : entryLe x m <;> simp [hle] at h

theorem popMin_decomp (l : List (Nat × String)) (e : Nat × String)
    (rest : List (Nat × String)) (h : popMin l = some (e, rest)) :
    ∃ l1 l2, l = l1 ++ e :: l2 ∧ rest = l1 ++ l2 := by
  induction l generalizing e rest with
  | nil => simp [popMin] at h
  | cons x xs ih =>
      rw [popMin] at h
      cases hx : popMin xs with
      | none =>
          simp only [hx] at h
          simp at h
          obtain ⟨he, hr⟩ := h
          obtain rfl : xs = [] := popMin_eq_none xs hx
          exact ⟨[], [], by simp [he], by simp [hr]⟩
      | some mr =>
          obtain ⟨m, rest1⟩ := mr
          simp only [hx] at h
          by_cases hle : entryLe x m
          · rw [if_pos hle] at h
            simp at h
            obtain ⟨he, hr⟩ := h
            exact ⟨[], xs, by simp [he], by simp [hr]⟩
          · rw [if_neg hle] at h
            simp at h
            obtain ⟨he, hr⟩ := h
            obtain ⟨l1, l2, hxs, hr1⟩ := ih m rest1 hx
            subst he
            exact ⟨x :: l1, l2, by simp [hxs], by simp [← hr, hr1]⟩

theorem popMin_mem (l : List (Nat × String)) (e : Nat × String)
    (rest : List (Nat × String)) (h : popMin l = some (e, rest)) : e ∈ l := by
  obtain ⟨l1, l2, h1, _⟩ := popMin_decomp l e rest h
  subst h1
  simp

theorem mem_of_popMin_rest (l : List (Nat × String)) (e x : Nat × String)
    (rest : List (Nat × String)) (h : popMin l = some (e, rest)) (hx : x ∈ rest) : x ∈ l := by
  obtain ⟨l1, l2, h1, h2⟩ := popMin_decomp l e rest h
  subst h1
  subst h2
  simp at hx ⊢
  tauto

theorem occL_of_popMin (l : List (Nat × String)) (e : Nat × String)
    (rest : List (Nat × String)) (h : popMin l = some (e, rest)) (id : String) :
    occL l id = (if e.2 = id then 1 else 0) + occL rest id := by
  obtain ⟨l1, l2, h1, h2⟩ := popMin_decomp l e rest h
  subst h1
  subst h2
  rw [occL_append, occL_cons, occL_append]
  omega

/-- Well-use discipline for the queue interface: enqueue only generates fresh
ids (as the hash-based generator is meant to), and completion or failure is
only reported for a message a worker actually holds (state PROCESSING), or
for an id the queue no longer tracks (a harmless no-op). -/
def okOp (q : PMQueue) : QOp → Prop
  | .enqueue _ message_id _ => lookup q.messages message_id = none
  | .dequeue => True
  | .mark_completed message_id =>
      lookup q.message_states message_id = some .PROCESSING ∨
        lookup q.messages message_id = none
  | .mark_failed message_id _ =>
      lookup q.message_states message_id = some .PROCESSING ∨
        lookup q.messages message_id = none

/-- A disciplined run: a sequence of operations each permitted by `okOp` in
the state where it executes, none raising. -/
inductive DRun : PMQueue → Nat → List QOp → PMQueue → Prop where
  | nil (q : PMQueue) (t : Nat) : DRun q t [] q
  | cons {q q1 q2 : PMQueue} {t : Nat} {op : QOp} {ops : List QOp} (hok : okOp q op)
      (happ : applyOp q t op = some q1) (hrest : DRun q1 (t + 1) ops q2) :
      DRun q t (op :: ops) q2

/-- Internal consistency of a queue state: message and state maps share keys,
each id has at most one queue entry, every queued id is PENDING or RETRYING,
the per-state counters agree with the state map, and the received counter
splits into processed, failed and in-flight. -/
structure QInv (q : PMQueue) : Prop where
  keys_eq : keysOf q.messages = keysOf q.message_states
  keys_nodup : (keysOf q.message_states).Nodup
  occ_le : ∀ id, occQs q.queues id ≤ 1
  queued_st : ∀ p e, e ∈ q.queues.get p →
      lookup q.message_states e.2 = some .PENDING ∨
        lookup q.message_states e.2 = some .RETRYING
  bucket : ∀ st, q.stats.states.get st = (countState q.message_states st : Int)
  acct : q.stats.total_received = q.stats.total_processed + q.stats.total_failed +
      (countState q.message_states .PENDING + countState q.message_states .PROCESSING +
        countState q.message_states .RETRYING)

theorem not_queued_aux (q : PMQueue)
    (hqs : ∀ p e, e ∈ q.queues.get p →
      lookup q.message_states e.2 = some .PENDING ∨
        lookup q.message_states e.2 = some .RETRYING)
    (id : String)
    (hst : lookup q.message_states id ≠ some .PENDING ∧
      lookup q.message_states id ≠ some .RETRYING) :
    ∀ p e, e ∈ q.queues.get p → e.2 ≠ id := by
  intro p e he heq
  rcases hqs p e he with h | h <;> rw [heq] at h
  · exact hst.1 h
  · exact hst.2 h

theorem occQs_eq_zero (qs : Queues) (id : String)
    (h : ∀ p e, e ∈ qs.get p → e.2 ≠ id) : occQs qs id = 0 := by
  have h1 := occL_eq_zero (qs.get .CRITICAL) id (h .CRITICAL)
  have h2 := occL_eq_zero (qs.get .HIGH) id (h .HIGH)
  have h3 := occL_eq_zero (qs.get .MEDIUM) id (h .MEDIUM)
  have h4 := occL_eq_zero (qs.get .LOW) id (h .LOW)
  simp [occQs, h1, h2, h3, h4]

theorem QInv_initQ (R : Nat) : QInv (initQ R) := by
  refine ⟨rfl, List.nodup_nil, ?_, ?_, ?_, rfl⟩
  · intro id
    simp [occQs, occL, initQ, Queues.get]
  · intro p e he
    cases p <;> simp [initQ, Queues.get] at he
  · intro st
    cases st <;> rfl

theorem inv_enqueue (q : PMQueue) (hInv : QInv q) (now : Nat) (cont message_id : String)
    (p : MessagePriority) (hfresh : lookup q.messages message_id = none) :
    QInv (enqueue q now cont message_id p) := by
  have hkeysm : message_id ∉ keysOf q.messages := (lookup_none_iff _ _).mp hfresh
  have hkeyss : message_id ∉ keysOf q.message_states := by
    rw [← hInv.keys_eq]; exact hkeysm
  have hsnone : lookup q.message_states message_id = none := (lookup_none_iff _ _).mpr hkeyss
  have hnotq : ∀ p' e, e ∈ q.queues.get p' → e.2 ≠ message_id :=
    not_queued_aux q hInv.queued_st message_id (by rw [hsnone]; exact ⟨by simp, by simp⟩)
  have hocc0 : occQs q.queues message_id = 0 := occQs_eq_zero _ _ hnotq
  refine ⟨?_, ?_, ?_, ?_, ?_, ?_⟩
  · show keysOf (setA q.messages message_id _) = keysOf (setA q.message_states message_id _)
    rw [keysOf_setA_of_not_mem _ _ _ hkeysm, keysOf_setA_of_not_mem _ _ _ hkeyss,
      hInv.keys_eq]
  · show (keysOf (setA q.message_states message_id _)).Nodup
    rw [keysOf_setA_of_not_mem _ _ _ hkeyss, List.nodup_append]
    refine ⟨hInv.keys_nodup, List.nodup_singleton _, ?_⟩
    intro a ha hb
    simp at hb
    subst hb
    exact hkeyss ha
  · intro id
    show occQs (q.queues.set p (q.queues.get p ++ [(p.value, message_id)])) id ≤ 1
    have hset := occQs_set_eq q.queues p (q.queues.get p ++ [(p.value, message_id)]) id
    rw [occL_append] at hset
    have hone : occL [(p.value, message_id)] id = if message_id = id then 1 else 0 := by
      rw [occL_cons]
      simp [occL]
    rw [hone] at hset
    by_cases hid : message_id = id
    · subst hid
      rw [if_pos rfl] at hset
      have h1 := hInv.occ_le message_id
      omega
    · rw [if_neg hid] at hset
      have h1 := hInv.occ_le id
      omega
  · intro p' e he0
    have he : e ∈ (q.queues.set p (q.queues.get p ++ [(p.value, message_id)])).get p' := he0
    show lookup (setA q.message_states message_id .PENDING) e.2 = _ ∨
      lookup (setA q.message_states message_id .PENDING) e.2 = _
    rw [Queues.get_set] at he
    by_cases hpe : p = p'
    · subst hpe
      rw [if_pos rfl] at he
      rcases List.mem_append.mp he with h1 | h1
      · have h2 := hInv.queued_st p e h1
        have hne : e.2 ≠ message_id := hnotq p e h1
        rw [lookup_setA_ne _ _ _ _ hne]
        exact h2
      · simp at h1
        subst h1
        left
        exact lookup_setA_self q.message_states message_id .PENDING
    · rw [if_neg hpe] at he
      have hne : e.2 ≠ message_id := hnotq p' e he
      rw [lookup_setA_ne _ _ _ _ hne]
      exact hInv.queued_st p' e he
  · intro st
    show (q.stats.states.add .PENDING 1).get st =
      (countState (setA q.message_states message_id .PENDING) st : Int)
    rw [StateCounts.get_add, hInv.bucket st,
      countState_setA_fresh _ _ _ _ hsnone]
    by_cases h : (MessageState.PENDING : MessageState) = st <;> simp [h]
  · show q.stats.total_received + 1 = q.stats.total_processed + q.stats.total_failed +
      (countState (setA q.message_states message_id .PENDING) .PENDING +
        countState (setA q.message_states message_id .PENDING) .PROCESSING +
        countState (setA q.message_states message_id .PENDING) .RETRYING)
    have h1 := countState_setA_fresh q.message_states message_id .PENDING .PENDING hsnone
    have h2 := countState_setA_fresh q.message_states message_id .PENDING .PROCESSING hsnone
    have h3 := countState_setA_fresh q.message_states message_id .PENDING .RETRYING hsnone
    simp at h1 h2 h3
    have h4 := hInv.acct
    rw [h1, h2, h3]
    omega

theorem mark_failed_eq_retry (q : PMQueue) (message_id error : String)
    (message : QueueMessage) (old : MessageState)
    (hm : lookup q.messages message_id = some message)
    (hold : lookup q.message_states message_id = some old)
    (hr : message.retries < q.max_retries) :
    mark_failed q message_id error = { q with
      queues := q.queues.set message.priority
        (q.queues.get message.priority ++ [(message.priority.value, message_id)]),
      messages := setA q.messages message_id
        { message with retries := message.retries + 1, error := some error },
      message_states := setA q.message_states message_id .RETRYING,
      stats := { q.stats with
        total_retried := q.stats.total_retried + 1,
        states := (q.stats.states.add old (-1)).add .RETRYING 1 } } := by
  simp only [mark_failed, hm, update_message_state, hold, if_pos hr]

theorem mark_failed_eq_fail (q : PMQueue) (message_id error : String)
    (message : QueueMessage) (old : MessageState)
    (hm : lookup q.messages message_id = some message)
    (hold : lookup q.message_states message_id = some old)
    (hr : ¬ message.retries < q.max_retries) :
    mark_failed q message_id error = { q with
      messages := setA q.messages message_id { message with error := some error },
      message_states := setA q.message_states message_id .FAILED,
      stats := { q.stats with
        total_failed := q.stats.total_failed + 1,
        states := (q.stats.states.add old (-1)).add .FAILED 1 } } := by
  simp only [mark_failed, hm, update_message_state, hold, if_neg hr]

theorem inv_mark_failed (q : PMQueue) (hInv : QInv q) (message_id error : String)
    (hok : lookup q.message_states message_id = some .PROCESSING ∨
      lookup q.messages message_id = none) :
    QInv (mark_failed q message_id error) := by
  cases hm : lookup q.messages message_id with
  | none =>
      unfold mark_failed
      rw [hm]
      exact hInv
  | some message =>
      have hproc : lookup q.message_states message_id = some .PROCESSING := by
        rcases hok with h | h
        · exact h
        · rw [hm] at h; exact Option.noConfusion h
      have hnotq : ∀ p' e, e ∈ q.queues.get p' → e.2 ≠ message_id :=
        not_queued_aux q hInv.queued_st message_id (by rw [hproc]; exact ⟨by simp, by simp⟩)
      have hocc0 : occQs q.queues message_id = 0 := occQs_eq_zero _ _ hnotq
      have hkeysm : message_id ∈ keysOf q.messages := (mem_keysOf_iff_lookup _ _).mpr ⟨_, hm⟩
      have hkeyss : message_id ∈ keysOf q.message_states :=
        (mem_keysOf_iff_lookup _ _).mpr ⟨_, hproc⟩
      have hcP := countState_setA q.message_states message_id .PROCESSING
      by_cases hr : message.retries < q.max_retries
      · rw [mark_failed_eq_retry q message_id error message .PROCESSING hm hproc hr]
        refine ⟨?_, ?_, ?_, ?_, ?_, ?_⟩
        · show keysOf (setA q.messages message_id _) =
            keysOf (setA q.message_states message_id _)
          rw [keysOf_setA_of_mem _ _ _ hkeysm, keysOf_setA_of_mem _ _ _ hkeyss, hInv.keys_eq]
        · show (keysOf (setA q.message_states message_id _)).Nodup
          rw [keysOf_setA_of_mem _ _ _ hkeyss]
          exact hInv.keys_nodup
        · intro id
          show occQs (q.queues.set message.priority
            (q.queues.get message.priority ++
              [(message.priority.value, message_id)])) id ≤ 1
          have hset := occQs_set_eq q.queues message.priority
            (q.queues.get message.priority ++ [(message.priority.value, message_id)]) id
          rw [occL_append] at hset
          have hone : occL [(message.priority.value, message_id)] id =
              if message_id = id then 1 else 0 := by
            rw [occL_cons]
            simp [occL]
          rw [hone] at hset
          by_cases hid : message_id = id
          · subst hid
            rw [if_pos rfl] at hset
            omega
          · rw [if_neg hid] at hset
            have h1 := hInv.occ_le id
            omega
        · intro p' e he0
          have he : e ∈ (q.queues.set message.priority
            (q.queues.get message.priority ++
              [(message.priority.value, message_id)])).get p' := he0
          show lookup (setA q.message_states message_id .RETRYING) e.2 = _ ∨
            lookup (setA q.message_states message_id .RETRYING) e.2 = _
          rw [Queues.get_set] at he
          by_cases hpe : message.priority = p'
          · subst hpe
            rw [if_pos rfl] at he
            rcases List.mem_append.mp he with h1 | h1
            · have h2 := hInv.queued_st message.priority e h1
              have hne : e.2 ≠ message_id := hnotq message.priority e h1
              rw [lookup_setA_ne _ _ _ _ hne]
              exact h2
            · simp at h1
              subst h1
              right
              exact lookup_setA_self q.message_states message_id .RETRYING
          · rw [if_neg hpe] at he
            have hne : e.2 ≠ message_id := hnotq p' e he
            rw [lookup_setA_ne _ _ _ _ hne]
            exact hInv.queued_st p' e he
        · intro st
          show ((q.stats.states.add .PROCESSING (-1)).add .RETRYING 1).get st =
            (countState (setA q.message_states message_id .RETRYING) st : Int)
          rw [StateCounts.get_add, StateCounts.get_add, hInv.bucket st]
          have hc := hcP .RETRYING st hproc
          cases st <;> simp at hc ⊢ <;> omega
        · show q.stats.total_received = q.stats.total_processed + q.stats.total_failed +
            (countState (setA q.message_states message_id .RETRYING) .PENDING +
              countState (setA q.message_states message_id .RETRYING) .PROCESSING +
              countState (setA q.message_states message_id .RETRYING) .RETRYING)
          have h1 := hcP .RETRYING .PENDING hproc
          have h2 := hcP .RETRYING .PROCESSING hproc
          have h3 := hcP .RETRYING .RETRYING hproc
          simp at h1 h2 h3
          have h4 := hInv.acct
          omega
      · rw [mark_failed_eq_fail q message_id error message .PROCESSING hm hproc hr]
        refine ⟨?_, ?_, ?_, ?_, ?_, ?_⟩
        · show keysOf (setA q.messages message_id _) =
            keysOf (setA q.message_states message_id _)
          rw [keysOf_setA_of_mem _ _ _ hkeysm, keysOf_setA_of_mem _ _ _ hkeyss, hInv.keys_eq]
        · show (keysOf (setA q.message_states message_id _)).Nodup
          rw [keysOf_setA_of_mem _ _ _ hkeyss]
          exact hInv.keys_nodup
        · intro id
          exact hInv.occ_le id
        · intro p' e he
          show lookup (setA q.message_states message_id .FAILED) e.2 = _ ∨
            lookup (setA q.message_states message_id .FAILED) e.2 = _
          have hne : e.2 ≠ message_id := hnotq p' e he
          rw [lookup_setA_ne _ _ _ _ hne]
          exact hInv.queued_st p' e he
        · intro st
          show ((q.stats.states.add .PROCESSING (-1)).add .FAILED 1).get st =
            (countState (setA q.message_states message_id .FAILED) st : Int)
          rw [StateCounts.get_add, StateCounts.get_add, hInv.bucket st]
          have hc := hcP .FAILED st hproc
          cases st <;> simp at hc ⊢ <;> omega
        · show q.stats.total_received = q.stats.total_processed + (q.stats.total_failed + 1) +
            (countState (setA q.message_states message_id .FAILED) .PENDING +
              countState (setA q.message_states message_id .FAILED) .PROCESSING +
              countState (setA q.message_states message_id .FAILED) .RETRYING)
          have h1 := hcP .FAILED .PENDING hproc
          have h2 := hcP .FAILED .PROCESSING hproc
          have h3 := hcP .FAILED .RETRYING hproc
          simp at h1 h2 h3
          have h4 := hInv.acct
          omega

theorem mark_completed_eq (q : PMQueue) (now : Nat) (message_id : String)
    (message : QueueMessage) (started : Nat) (old : MessageState)
    (hm : lookup q.messages message_id = some message)
    (hps : message.processing_started = some started)
    (hold : lookup q.message_states message_id = some old) :
    mark_completed q now message_id = some { q with
      messages := setA q.messages message_id
        { message with processing_completed := some now },
      message_states := setA q.message_states message_id .COMPLETED,
      stats := { q.stats.update_processing_time (now - started) with
        total_processed := q.stats.total_processed + 1,
        states := (q.stats.states.add old (-1)).add .COMPLETED 1 } } := by
  simp only [mark_completed, hm, hps, update_message_state, hold,
    QueueStats.update_processing_time]

theorem inv_mark_completed (q q' : PMQueue) (hInv : QInv q) (now : Nat) (message_id : String)
    (hok : lookup q.message_states message_id = some .PROCESSING ∨
      lookup q.messages message_id = none)
    (h : mark_completed q now message_id = some q') : QInv q' := by
  cases hm : lookup q.messages message_id with
  | none =>
      simp only [mark_completed, hm] at h
      injection h with h2
      subst h2
      exact hInv
  | some message =>
      have hproc : lookup q.message_states message_id = some .PROCESSING := by
        rcases hok with h1 | h1
        · exact h1
        · rw [hm] at h1; exact Option.noConfusion h1
      have hnotq : ∀ p' e, e ∈ q.queues.get p' → e.2 ≠ message_id :=
        not_queued_aux q hInv.queued_st message_id (by rw [hproc]; exact ⟨by simp, by simp⟩)
      have hkeysm : message_id ∈ keysOf q.messages := (mem_keysOf_iff_lookup _ _).mpr ⟨_, hm⟩
      have hkeyss : message_id ∈ keysOf q.message_states :=
        (mem_keysOf_iff_lookup _ _).mpr ⟨_, hproc⟩
      have hcP := countState_setA q.message_states message_id .PROCESSING
      cases hps : message.processing_started with
      | none =>
          simp only [mark_completed, hm, hps] at h
          exact Option.noConfusion h
      | some started =>
          rw [mark_completed_eq q now message_id message started .PROCESSING hm hps hproc] at h
          injection h with h2
          subst h2
          refine ⟨?_, ?_, ?_, ?_, ?_, ?_⟩
          · show keysOf (setA q.messages message_id _) =
              keysOf (setA q.message_states message_id _)
            rw [keysOf_setA_of_mem _ _ _ hkeysm, keysOf_setA_of_mem _ _ _ hkeyss,
              hInv.keys_eq]
          · show (keysOf (setA q.message_states message_id _)).Nodup
            rw [keysOf_setA_of_mem _ _ _ hkeyss]
            exact hInv.keys_nodup
          · intro id
            exact hInv.occ_le id
          · intro p' e he
            show lookup (setA q.message_states message_id .COMPLETED) e.2 = _ ∨
              lookup (setA q.message_states message_id .COMPLETED) e.2 = _
            have hne : e.2 ≠ message_id := hnotq p' e he
            rw [lookup_setA_ne _ _ _ _ hne]
            exact hInv.queued_st p' e he
          · intro st
            show ((q.stats.states.add .PROCESSING (-1)).add .COMPLETED 1).get st =
              (countState (setA q.message_states message_id .COMPLETED) st : Int)
            rw [StateCounts.get_add, StateCounts.get_add, hInv.bucket st]
            have hc := hcP .COMPLETED st hproc
            cases st <;> simp at hc ⊢ <;> omega
          · show q.stats.total_received = (q.stats.total_processed + 1) +
              q.stats.total_failed +
              (countState (setA q.message_states message_id .COMPLETED) .PENDING +
                countState (setA q.message_states message_id .COMPLETED) .PROCESSING +
                countState (setA q.message_states message_id .COMPLETED) .RETRYING)
            have h1 := hcP .COMPLETED .PENDING hproc
            have h2 := hcP .COMPLETED .PROCESSING hproc
            have h3 := hcP .COMPLETED .RETRYING hproc
            simp at h1 h2 h3
            have h4 := hInv.acct
            omega

theorem dequeueFrom_empty_eq (q : PMQueue) (now : Nat) (p : MessagePriority)
    (ps : List MessagePriority) (hpop : popMin (q.queues.get p) = none) :
    dequeueFrom q now (p :: ps) = dequeueFrom q now ps := by
  simp only [dequeueFrom, hpop]

theorem dequeueFrom_drop_eq (q : PMQueue) (now : Nat) (p : MessagePriority)
    (ps : List MessagePriority) (e : Nat × String) (remaining : List (Nat × String))
    (hpop : popMin (q.queues.get p) = some (e, remaining))
    (hm : lookup q.messages e.2 = none) :
    dequeueFrom q now (p :: ps) =
      dequeueFrom { q with queues := q.queues.set p remaining } now ps := by
  simp only [dequeueFrom, hpop, hm]

theorem dequeueFrom_found_eq (q : PMQueue) (now : Nat) (p : MessagePriority)
    (ps : List MessagePriority) (e : Nat × String) (remaining : List (Nat × String))
    (message : QueueMessage) (old : MessageState)
    (hpop : popMin (q.queues.get p) = some (e, remaining))
    (hm : lookup q.messages e.2 = some message)
    (hold : lookup q.message_states e.2 = some old) :
    dequeueFrom q now (p :: ps) =
      (some { message with processing_started := some now },
       { q with
         queues := q.queues.set p remaining,
         messages := setA q.messages e.2 { message with processing_started := some now },
         message_states := setA q.message_states e.2 .PROCESSING,
         stats := { q.stats with
           states := (q.stats.states.add old (-1)).add .PROCESSING 1 } }) := by
  simp only [dequeueFrom, hpop, hm, update_message_state, hold]

theorem inv_drop (q : PMQueue) (p : MessagePriority) (e : Nat × String)
    (remaining : List (Nat × String))
    (hpop : popMin (q.queues.get p) = some (e, remaining)) (hInv : QInv q) :
    QInv { q with queues := q.queues.set p remaining } := by
  refine ⟨hInv.keys_eq, hInv.keys_nodup, ?_, ?_, hInv.bucket, hInv.acct⟩
  · intro id
    show occQs (q.queues.set p remaining) id ≤ 1
    have hset := occQs_set_eq q.queues p remaining id
    have hpo := occL_of_popMin _ _ _ hpop id
    have h1 := hInv.occ_le id
    by_cases hid : e.2 = id
    · rw [if_pos hid] at hpo
      omega
    · rw [if_neg hid] at hpo
      omega
  · intro p' e' he0
    have he : e' ∈ (q.queues.set p remaining).get p' := he0
    rw [Queues.get_set] at he
    by_cases hpe : p = p'
    · subst hpe
      rw [if_pos rfl] at he
      exact hInv.queued_st p e' (mem_of_popMin_rest _ _ _ _ hpop he)
    · rw [if_neg hpe] at he
      exact hInv.queued_st p' e' he

theorem inv_found_aux (q : PMQueue) (now : Nat) (p : MessagePriority) (e : Nat × String)
    (remaining : List (Nat × String)) (message : QueueMessage) (old : MessageState)
    (hpop : popMin (q.queues.get p) = some (e, remaining))
    (hm : lookup q.messages e.2 = some message)
    (hold : lookup q.message_states e.2 = some old)
    (holdPR : old = .PENDING ∨ old = .RETRYING) (hInv : QInv q) :
    QInv { q with
      queues := q.queues.set p remaining,
      messages := setA q.messages e.2 { message with processing_started := some now },
      message_states := setA q.message_states e.2 .PROCESSING,
      stats := { q.stats with
        states := (q.stats.states.add old (-1)).add .PROCESSING 1 } } := by
  have hkeysm : e.2 ∈ keysOf q.messages := (mem_keysOf_iff_lookup _ _).mpr ⟨_, hm⟩
  have hkeyss : e.2 ∈ keysOf q.message_states := (mem_keysOf_iff_lookup _ _).mpr ⟨_, hold⟩
  have hpoe := occL_of_popMin _ _ _ hpop e.2
  rw [if_pos rfl] at hpoe
  have hsete := occQs_set_eq q.queues p remaining e.2
  have hocce := hInv.occ_le e.2
  have hnotq : ∀ p' e', e' ∈ (q.queues.set p remaining).get p' → e'.2 ≠ e.2 := by
    intro p' e' he' heq
    have h1 := occL_pos_of_mem _ e' e.2 he' heq
    have h2 := occL_le_occQs (q.queues.set p remaining) p' e.2
    omega
  refine ⟨?_, ?_, ?_, ?_, ?_, ?_⟩
  · show keysOf (setA q.messages e.2 _) = keysOf (setA q.message_states e.2 _)
    rw [keysOf_setA_of_mem _ _ _ hkeysm, keysOf_setA_of_mem _ _ _ hkeyss, hInv.keys_eq]
  · show (keysOf (setA q.message_states e.2 _)).Nodup
    rw [keysOf_setA_of_mem _ _ _ hkeyss]
    exact hInv.keys_nodup
  · intro id
    show occQs (q.queues.set p remaining) id ≤ 1
    have hset := occQs_set_eq q.queues p remaining id
    have hpo := occL_of_popMin _ _ _ hpop id
    have h1 := hInv.occ_le id
    by_cases hid : e.2 = id
    · rw [if_pos hid] at hpo
      omega
    · rw [if_neg hid] at hpo
      omega
  · intro p' e' he0
    have he : e' ∈ (q.queues.set p remaining).get p' := he0
    have hne : e'.2 ≠ e.2 := hnotq p' e' he
    show lookup (setA q.message_states e.2 .PROCESSING) e'.2 = _ ∨
      lookup (setA q.message_states e.2 .PROCESSING) e'.2 = _
    rw [lookup_setA_ne _ _ _ _ hne]
    rw [Queues.get_set] at he
    by_cases hpe : p = p'
    · subst hpe
      rw [if_pos rfl] at he
      exact hInv.queued_st p e' (mem_of_popMin_rest _ _ _ _ hpop he)
    · rw [if_neg hpe] at he
      exact hInv.queued_st p' e' he
  · intro st
    show ((q.stats.states.add old (-1)).add .PROCESSING 1).get st =
      (countState (setA q.message_states e.2 .PROCESSING) st : Int)
    rw [StateCounts.get_add, StateCounts.get_add, hInv.bucket st]
    have hc := countState_setA q.message_states e.2 old .PROCESSING st hold
    rcases holdPR with rfl | rfl <;> cases st <;> simp at hc ⊢ <;> omega
  · show q.stats.total_received = q.stats.total_processed + q.stats.total_failed +
      (countState (setA q.message_states e.2 .PROCESSING) .PENDING +
        countState (setA q.message_states e.2 .PROCESSING) .PROCESSING +
        countState (setA q.message_states e.2 .PROCESSING) .RETRYING)
    have h4 := hInv.acct
    have h1 := countState_setA q.message_states e.2 old .PROCESSING .PENDING hold
    have h2 := countState_setA q.message_states e.2 old .PROCESSING .PROCESSING hold
    have h3 := countState_setA q.message_states e.2 old .PROCESSING .RETRYING hold
    rcases holdPR with rfl | rfl <;> simp at h1 h2 h3 <;> omega

theorem inv_dequeueFrom (now : Nat) (ps : List MessagePriority) :
    ∀ q : PMQueue, QInv q → QInv (dequeueFrom q now ps).2 := by
  induction ps with
  | nil => exact fun q h => h
  | cons p rest ih =>
      intro q hInv
      cases hpop : popMin (q.queues.get p) with
      | none =>
          rw [dequeueFrom_empty_eq q now p rest hpop]
          exact ih q hInv
      | some er =>
          obtain ⟨e, remaining⟩ := er
          cases hm : lookup q.messages e.2 with
          | none =>
              rw [dequeueFrom_drop_eq q now p rest e remaining hpop hm]
              exact ih _ (inv_drop q p e remaining hpop hInv)
          | some message =>
              have hqmem : e ∈ q.queues.get p := popMin_mem _ _ _ hpop
              rcases hInv.queued_st p e hqmem with hold | hold
              · rw [dequeueFrom_found_eq q now p rest e remaining message .PENDING
                  hpop hm hold]
                exact inv_found_aux q now p e remaining message .PENDING hpop hm hold
                  (Or.inl rfl) hInv
              · rw [dequeueFrom_found_eq q now p rest e remaining message .RETRYING
                  hpop hm hold]
                exact inv_found_aux q now p e remaining message .RETRYING hpop hm hold
                  (Or.inr rfl) hInv

theorem inv_applyOp (q q' : PMQueue) (t : Nat) (op : QOp) (hInv : QInv q)
    (hok : okOp q op) (happ : applyOp q t op = some q') : QInv q' := by
  cases op with
  | enqueue cont mid p =>
      injection happ with happ
      subst happ
      exact inv_enqueue q hInv t cont mid p hok
  | dequeue =>
      injection happ with happ
      subst happ
      exact inv_dequeueFrom t _ q hInv
  | mark_completed mid =>
      exact inv_mark_completed q q' hInv t mid hok happ
  | mark_failed mid error =>
      injection happ with happ
      subst happ
      exact inv_mark_failed q hInv mid error hok

theorem DRun_inv {q : PMQueue} {t : Nat} {ops : List QOp} {q' : PMQueue}
    (h : DRun q t ops q') (hInv : QInv q) : QInv q' := by
  induction h with
  | nil => exact hInv
  | cons hok happ _ ih => exact ih (inv_applyOp _ _ _ _ hInv hok happ)

theorem dequeueFrom_state_change (now : Nat) (ps : List MessagePriority) :
    ∀ q : PMQueue, QInv q → ∀ id st st',
      lookup q.message_states id = some st →
      lookup (dequeueFrom q now ps).2.message_states id = some st' →
      st = st' ∨ ((st = .PENDING ∨ st = .RETRYING) ∧ st' = .PROCESSING) := by
  induction ps with
  | nil =>
      intro q _ id st st' h1 h2
      have h2' : lookup q.message_states id = some st' := h2
      rw [h1] at h2'
      injection h2' with h3
      exact Or.inl h3
  | cons p rest ih =>
      intro q hInv id st st' h1 h2
      cases hpop : popMin (q.queues.get p) with
      | none =>
          rw [dequeueFrom_empty_eq q now p rest hpop] at h2
          exact ih q hInv id st st' h1 h2
      | some er =>
          obtain ⟨e, remaining⟩ := er
          cases hm : lookup q.messages e.2 with
          | none =>
              rw [dequeueFrom_drop_eq q now p rest e remaining hpop hm] at h2
              exact ih _ (inv_drop q p e remaining hpop hInv) id st st' h1 h2
          | some message =>
              have hqmem := popMin_mem _ _ _ hpop
              rcases hInv.queued_st p e hqmem with hold | hold
              · rw [dequeueFrom_found_eq q now p rest e remaining message .PENDING
                  hpop hm hold] at h2
                have h2' : lookup (setA q.message_states e.2 .PROCESSING) id = some st' := h2
                by_cases hid : id = e.2
                · rw [hid] at h1
                  rw [hold] at h1
                  injection h1 with h1e
                  rw [hid, lookup_setA_self] at h2'
                  injection h2' with h2e
                  exact Or.inr ⟨Or.inl h1e.symm, h2e.symm⟩
                · rw [lookup_setA_ne _ _ _ _ hid, h1] at h2'
                  injection h2' with h3
                  exact Or.inl h3
              · rw [dequeueFrom_found_eq q now p rest e remaining message .RETRYING
                  hpop hm hold] at h2
                have h2' : lookup (setA q.message_states e.2 .PROCESSING) id = some st' := h2
                by_cases hid : id = e.2
                · rw [hid] at h1
                  rw [hold] at h1
                  injection h1 with h1e
                  rw [hid, lookup_setA_self] at h2'
                  injection h2' with h2e
                  exact Or.inr ⟨Or.inr h1e.symm, h2e.symm⟩
                · rw [lookup_setA_ne _ _ _ _ hid, h1] at h2'
                  injection h2' with h3
                  exact Or.inl h3

theorem applyOp_state_change (q q' : PMQueue) (t : Nat) (op : QOp) (hInv : QInv q)
    (hok : okOp q op) (happ : applyOp q t op = some q') (id : String)
    (st st' : MessageState) (h1 : lookup q.message_states id = some st)
    (h2 : lookup q'.message_states id = some st') (hne : st ≠ st') :
    allowedCode st st' := by
  cases op with
  | enqueue cont mid p =>
      injection happ with happ
      subst happ
      have hkeysm : mid ∉ keysOf q.messages := (lookup_none_iff _ _).mp hok
      have hsnone : lookup q.message_states mid = none :=
        (lookup_none_iff _ _).mpr (by rw [← hInv.keys_eq]; exact hkeysm)
      have h2' : lookup (setA q.message_states mid .PENDING) id = some st' := h2
      by_cases hid : id = mid
      · rw [hid] at h1
        rw [h1] at hsnone
        exact Option.noConfusion hsnone
      · rw [lookup_setA_ne _ _ _ _ hid, h1] at h2'
        injection h2' with h3
        exact absurd h3 hne
  | dequeue =>
      injection happ with happ
      subst happ
      have h2' : lookup (dequeueFrom q t [.CRITICAL, .HIGH, .MEDIUM, .LOW]).2.message_states
          id = some st' := h2
      rcases dequeueFrom_state_change t _ q hInv id st st' h1 h2' with h | ⟨hP, hPr⟩
      · exact absurd h hne
      · subst hPr
        rcases hP with rfl | rfl
        · exact Or.inl ⟨rfl, rfl⟩
        · exact Or.inr (Or.inl ⟨rfl, rfl⟩)
  | mark_completed mid =>
      cases hm : lookup q.messages mid with
      | none =>
          simp only [applyOp, mark_completed, hm] at happ
          injection happ with happ
          subst happ
          rw [h1] at h2
          injection h2 with h3
          exact absurd h3 hne
      | some message =>
          have hproc : lookup q.message_states mid = some .PROCESSING := by
            rcases hok with h | h
            · exact h
            · rw [hm] at h; exact Option.noConfusion h
          cases hps : message.processing_started with
          | none =>
              simp only [applyOp, mark_completed, hm, hps] at happ
              exact Option.noConfusion happ
          | some started =>
              have heq := mark_completed_eq q t mid message started .PROCESSING hm hps hproc
              rw [show applyOp q t (QOp.mark_completed mid) = mark_completed q t mid
                from rfl, heq] at happ
              injection happ with happ
              subst happ
              have h2' : lookup (setA q.message_states mid .COMPLETED) id = some st' := h2
              by_cases hid : id = mid
              · rw [hid] at h1
                rw [hproc] at h1
                injection h1 with h1e
                rw [hid, lookup_setA_self] at h2'
                injection h2' with h2e
                subst h1e
                subst h2e
                exact Or.inr (Or.inr (Or.inl ⟨rfl, rfl⟩))
              · rw [lookup_setA_ne _ _ _ _ hid, h1] at h2'
                injection h2' with h3
                exact absurd h3 hne
  | mark_failed mid error =>
      injection happ with happ
      subst happ
      cases hm : lookup q.messages mid with
      | none =>
          have hqe : mark_failed q mid error = q := by unfold mark_failed; rw [hm]
          rw [hqe] at h2
          rw [h1] at h2
          injection h2 with h3
          exact absurd h3 hne
      | some message =>
          have hproc : lookup q.message_states mid = some .PROCESSING := by
            rcases hok with h | h
            · exact h
            · rw [hm] at h; exact Option.noConfusion h
          by_cases hr : message.retries < q.max_retries
          · rw [mark_failed_eq_retry q mid error message .PROCESSING hm hproc hr] at h2
            have h2' : lookup (setA q.message_states mid .RETRYING) id = some st' := h2
            by_cases hid : id = mid
            · rw [hid] at h1
              rw [hproc] at h1
              injection h1 with h1e
              rw [hid, lookup_setA_self] at h2'
              injection h2' with h2e
              subst h1e
              subst h2e
              exact Or.inr (Or.inr (Or.inr (Or.inl ⟨rfl, rfl⟩)))
            · rw [lookup_setA_ne _ _ _ _ hid, h1] at h2'
              injection h2' with h3
              exact absurd h3 hne
          · rw [mark_failed_eq_fail q mid error message .PROCESSING hm hproc hr] at h2
            have h2' : lookup (setA q.message_states mid .FAILED) id = some st' := h2
            by_cases hid : id = mid
            · rw [hid] at h1
              rw [hproc] at h1
              injection h1 with h1e
              rw [hid, lookup_setA_self] at h2'
              injection h2' with h2e
              subst h1e
              subst h2e
              exact Or.inr (Or.inr (Or.inr (Or.inr ⟨rfl, rfl⟩)))
            · rw [lookup_setA_ne _ _ _ _ hid, h1] at h2'
              injection h2' with h3
              exact absurd h3 hne

/-- C2 (amended): in every disciplined run (fresh enqueue ids;
mark_completed and mark_failed invoked only for ids in PROCESSING or ids no
longer tracked), every state change a single operation causes is one of
PENDING→PROCESSING, RETRYING→PROCESSING, PROCESSING→COMPLETED,
PROCESSING→RETRYING, PROCESSING→FAILED.  In particular a retried message
stays RETRYING until its next dequeue moves it straight back to PROCESSING;
the RETRYING→PENDING transition of the claim never occurs. -/
theorem c2_transitions_amended (R t t' : Nat) (ops : List QOp) (q q' : PMQueue) (op : QOp)
    (h : DRun (initQ R) t ops q) (hok : okOp q op) (happ : applyOp q t' op = some q')
    (id : String) (st st' : MessageState)
    (h1 : lookup q.message_states id = some st)
    (h2 : lookup q'.message_states id = some st') (hne : st ≠ st') :
    allowedCode st st' :=
  applyOp_state_change q q' t' op (DRun_inv h (QInv_initQ R)) hok happ id st st' h1 h2 hne

def c2Ops : List QOp := [.enqueue "m" "a" .MEDIUM, .dequeue, .mark_failed "a" "boom"]

def c2Mid : PMQueue := (run (initQ 3) c2Ops).getD (initQ 3)

def c2End : PMQueue := (dequeue c2Mid 3).2

/-- Witness for C2 at a concrete disciplined run: the fourth operation
dequeues the retried message "a", whose RETRYING→PROCESSING step is in the
transition relation of the code. -/
theorem c2_transitions_amended_witness :
    DRun (initQ 3) 0 c2Ops c2Mid ∧
    okOp c2Mid QOp.dequeue ∧
    applyOp c2Mid 3 QOp.dequeue = some c2End ∧
    lookup c2Mid.message_states "a" = some .RETRYING ∧
    lookup c2End.message_states "a" = some .PROCESSING ∧
    MessageState.RETRYING ≠ MessageState.PROCESSING ∧
    allowedCode .RETRYING .PROCESSING := by
  have hrun : DRun (initQ 3) 0 c2Ops c2Mid :=
    DRun.cons rfl rfl (DRun.cons trivial rfl (DRun.cons (Or.inl rfl) rfl (DRun.nil _ _)))
  refine ⟨hrun, trivial, rfl, rfl, rfl, by decide, ?_⟩
  exact c2_transitions_amended 3 0 3 c2Ops c2Mid c2End QOp.dequeue hrun trivial rfl "a"
    .RETRYING .PROCESSING rfl rfl (by decide)

/-- C4 (amended): in every disciplined run (fresh enqueue ids;
mark_completed and mark_failed invoked only for ids in PROCESSING or ids no
longer tracked), every tracked message has exactly one recorded state, each
per-state counter equals the number of tracked messages in that state (so no
message is counted in two buckets), and total_received equals
total_processed plus total_failed plus the number of messages in a
non-terminal state. -/
theorem c4_accounting_amended (R t : Nat) (ops : List QOp) (q : PMQueue)
    (h : DRun (initQ R) t ops q) :
    (keysOf q.message_states).Nodup ∧
    (∀ st, q.stats.states.get st = (countState q.message_states st : Int)) ∧
    q.stats.total_received = q.stats.total_processed + q.stats.total_failed +
      (countState q.message_states .PENDING + countState q.message_states .PROCESSING +
        countState q.message_states .RETRYING) := by
  have hInv := DRun_inv h (QInv_initQ R)
  exact ⟨hInv.keys_nodup, hInv.bucket, hInv.acct⟩

def c4Ops : List QOp := [.enqueue "m" "a" .MEDIUM, .dequeue, .mark_completed "a"]

def c4End : PMQueue := (run (initQ 3) c4Ops).getD (initQ 3)

/-- Witness for C4 at a concrete disciplined run. -/
theorem c4_accounting_amended_witness :
    DRun (initQ 3) 0 c4Ops c4End ∧
    c4End.stats.total_received = c4End.stats.total_processed + c4End.stats.total_failed +
      (countState c4End.message_states .PENDING + countState c4End.message_states .PROCESSING +
        countState c4End.message_states .RETRYING) := by
  have hrun : DRun (initQ 3) 0 c4Ops c4End :=
    DRun.cons rfl rfl (DRun.cons trivial rfl (DRun.cons (Or.inl rfl) rfl (DRun.nil _ _)))
  exact ⟨hrun, (c4_accounting_amended 3 0 c4Ops c4End hrun).2.2⟩

/-- `message_handler.MessageType`. -/
inductive MessageType where
  | POSITION_UPDATE
  | EMERGENCY_ALERT
  | TRAFFIC_INFO
  | INFRASTRUCTURE_STATUS
  | SAFETY_WARNING
  | CONTROL_COMMAND
deriving DecidableEq

/-- `message_handler.MessageMetadata`.  Timestamps are rationals counting
seconds; Python datetime differences give fractional seconds the same way. -/
structure MessageMetadata where
  message_id : String
  sender_id : String
  timestamp : ℚ
  message_type : MessageType
  priority : Nat
  hop_count : Nat := 0
  signature : Option String := none
  previous_hop : Option String := none

/-- A value in a V2I message content dict. -/
inductive PyVal where
  | num (q : ℚ)
  | str (s : String)
deriving DecidableEq

/-- A message content dict. -/
abbrev VMessage := List (String × PyVal)

/-- `message_handler.MessageValidator` state: configured maximum age in
milliseconds and the duplicate cache mapping message id to the timestamp
cached on the last successful validation. -/
structure MessageValidator where
  max_message_age : ℚ := 5000
  message_cache : List (String × ℚ) := []

/-- `MessageValidator._validate_timing`: age in milliseconds against the
configured bound, then the future-timestamp check. -/
def validate_timing (v : MessageValidator) (now : ℚ) (metadata : MessageMetadata) :
    Bool × String :=
  let message_age := (now - metadata.timestamp) * 1000
  if message_age > v.max_message_age then (false, "Message too old")
  else if metadata.timestamp > now then (false, "Future timestamp detected")
  else (true, "")

/-- The required-field table of `MessageValidator._validate_structure`. -/
def required_fields : MessageType → List String
  | .POSITION_UPDATE => ["position", "speed", "direction"]
  | .EMERGENCY_ALERT => ["alert_type", "severity", "location"]
  | .TRAFFIC_INFO => ["road_id", "congestion_level", "average_speed"]
  | .INFRASTRUCTURE_STATUS => ["device_id", "status", "health"]
  | .SAFETY_WARNING => ["warning_type", "affected_area", "duration"]
  | .CONTROL_COMMAND => ["command_type", "parameters", "target_id"]

/-- `MessageValidator._validate_structure`: fail when any required field of
the message type is missing from the content keys. -/
def validate_structure (message : VMessage) (message_type : MessageType) : Bool × String :=
  let missing_fields := (required_fields message_type).filter
    (fun f => decide (lookup message f = none))
  if missing_fields ≠ [] then (false, "Missing required fields")
  else (true, "")

/-- `MessageValidator._validate_duplicates`: reject when the same message id
was cached less than one second before this message's timestamp. -/
def validate_duplicates (v : MessageValidator) (metadata : MessageMetadata) :
    Bool × String :=
  match lookup v.message_cache metadata.message_id with
  | some cached_time =>
      if metadata.timestamp - cached_time < 1 then
        (false, "Duplicate message detected: " ++ metadata.message_id)
      else (true, "")
  | none => (true, "")

/-- `MessageValidator._validate_sequence`: the body only inspects whether a
sequence number is present and then passes unconditionally. -/
def validate_sequence (message : VMessage) (metadata : MessageMetadata) : Bool × String :=
  (true, "")

/-- `MessageValidator._validate_constraints`.  The Python method eagerly
builds the handler dict mapping each message type to
`self._validate_<type>_constraints`.  Only the POSITION_UPDATE handler is a
method of `MessageValidator`; the other five handler functions sit at module
level (their defs are not indented into the class body), so evaluating
`self._validate_emergency_constraints` in the dict display raises
AttributeError before any dispatch on the message type can happen, for every
message and every type. -/
def validate_constraints (message : VMessage) (metadata : MessageMetadata) :
    Except String (Bool × String) :=
  Except.error
    "AttributeError: MessageValidator object has no attribute _validate_emergency_constraints"

/-- The separator join of `" | ".join(failed_validations)`. -/
def joinBar : List String → String
  | [] => ""
  | [s] => s
  | s :: rest => s ++ " | " ++ joinBar rest

/-- `MessageValidator.validate_message`: run the five checks, collect the
failed ones, join their reasons; on success cache the message timestamp
under its id.  The fifth check raises AttributeError, so every call
propagates that exception instead of returning. -/
def validate_message (v : MessageValidator) (now : ℚ) (message : VMessage)
    (metadata : MessageMetadata) :
    Except String ((Bool × String) × MessageValidator) :=
  let r1 := validate_timing v now metadata
  let r2 := validate_structure message metadata.message_type
  let r3 := validate_duplicates v metadata
  let r4 := validate_sequence message metadata
  match validate_constraints message metadata with
  | .error e => .error e
  | .ok r5 =>
      let failed := ([r1, r2, r3, r4, r5].filter (fun r => !r.1)).map Prod.snd
      if failed ≠ [] then .ok ((false, joinBar failed), v)
      else .ok ((true, "Message valid"),
        { v with
          message_cache := setA v.message_cache metadata.message_id metadata.timestamp })

def c6Message : VMessage :=
  [("position", .str "p"), ("speed", .num 50), ("direction", .num 90)]

def c6Metadata : MessageMetadata :=
  { message_id := "msg-1", sender_id := "veh-1", timestamp := 100,
    message_type := .POSITION_UPDATE, priority := 1 }

/-- C6: duplicate detection is unreachable.  Even a perfectly fresh,
well-formed POSITION_UPDATE submission makes validate_message raise
AttributeError (the constraint-handler table references module-level
functions as methods), so no first call ever succeeds, nothing is ever
cached, and the duplicate or retry-after-2-seconds behaviour the claim
describes can never be observed. -/
theorem c6_validate_message_raises :
    validate_message {} 100 c6Message c6Metadata =
      Except.error
        "AttributeError: MessageValidator object has no attribute _validate_emergency_constraints" ∧
    (validate_timing {} 100 c6Metadata).1 = true ∧
    (validate_duplicates {} c6Metadata).1 = true := by
  refine ⟨rfl, ?_, rfl⟩
  norm_num [validate_timing, c6Metadata]

def c7Message : VMessage := []

def c7Metadata : MessageMetadata :=
  { message_id := "msg-2", sender_id := "veh-2", timestamp := 0,
    message_type := .POSITION_UPDATE, priority := 1 }

/-- C7: combined failure reporting is unreachable.  A message that is both
stale (100 seconds old, far over the 5000 ms bound) and missing every
required POSITION_UPDATE field still makes validate_message raise
AttributeError instead of returning ok=false with a reason string naming
both violations. -/
theorem c7_validate_message_raises :
    validate_message {} 100 c7Message c7Metadata =
      Except.error
        "AttributeError: MessageValidator object has no attribute _validate_emergency_constraints" ∧
    (validate_timing {} 100 c7Metadata).1 = false ∧
    (validate_structure c7Message c7Metadata.message_type).1 = false := by
  refine ⟨rfl, ?_, rfl⟩
  norm_num [validate_timing, c7Metadata]

/-- An opaque payload dict produced by a pipeline stage. -/
abbrev Evidence := List (String × String)

/-- `detector.DetectionResult` (the fields the gateway reads). -/
structure DetectionResult where
  threat_detected : Bool
  confidence : ℚ
  threat_type : Option String
  affected_nodes : List String
  evidence : Evidence
  recommendation : String

/-- `analyzer.AnalysisResult` (the fields the gateway reads). -/
structure AnalysisResult where
  anomaly_score : ℚ
  anomaly_type : Option String
  confidence : ℚ
  context_analysis : Evidence

/-- The nested evidence dict built by `_combine_results`. -/
structure EvidenceBundle where
  detection : Evidence
  analysis : Evidence
  transform : Evidence

/-- The combined-result dict of `_combine_results`. -/
structure CombinedResult where
  threat_detected : Bool
  confidence : ℚ
  threat_type : Option String
  evidence : EvidenceBundle

/-- `api_gateway.V2IMessage` (the fields the pipeline reads; the full dict
is what the oracles receive). -/
structure V2IMessage where
  message_id : String
  sender_id : String
  message_type : String
  content : Evidence

/-- The configuration entries of `ApiGateway.config` used by the pipeline. -/
structure GatewayConfig where
  analysis_threshold : ℚ
  transform_threshold : ℚ
  threat_threshold : ℚ
  max_sequence_length : Nat
  recommendation_templates : List (String × List String)

/-- Python `a or b` on optional strings: None and the empty string are
falsy, so the left operand wins exactly when it is a non-empty string. -/
def pyOrOptStr : Option String → Option String → Option String
  | some s, b => if s = "" then b else some s
  | none, b => b

/-- `ApiGateway._combine_results`. -/
def combine_results (cfg : GatewayConfig) (detection : DetectionResult)
    (analysis : AnalysisResult) (transform : Evidence) : CombinedResult :=
  { threat_detected := detection.threat_detected ||
      decide (analysis.anomaly_score > cfg.threat_threshold)
    confidence := max detection.confidence analysis.anomaly_score
    threat_type := pyOrOptStr detection.threat_type analysis.anomaly_type
    evidence := { detection := detection.evidence
                  analysis := analysis.context_analysis
                  transform := transform } }

/-- `ApiGateway._generate_recommendations` over the combined-result dict. -/
def generate_recommendations (cfg : GatewayConfig) (threat_detected : Bool)
    (threat_type : Option String) (confidence : ℚ) : List String :=
  if threat_detected then
    (if confidence > 0.9 then ["URGENT: Immediate action required"] else []) ++
    (match threat_type with
     | some tt =>
         match lookup cfg.recommendation_templates tt with
         | some recs => recs
         | none => []
     | none => [])
  else []

/-- `api_gateway.DetectionResponse` (the fields `_create_response` fills). -/
structure DetectionResponse where
  status : String
  threat_detected : Bool
  confidence : ℚ
  threat_type : Option String
  recommendations : List String

/-- `ApiGateway._create_response` on the combined-result dict (the one call
site whose argument really is a dict). -/
def create_response (cfg : GatewayConfig) (result : CombinedResult) : DetectionResponse :=
  { status := "success"
    threat_detected := result.threat_detected
    confidence := result.confidence
    threat_type := result.threat_type
    recommendations := generate_recommendations cfg result.threat_detected
      result.threat_type result.confidence }

/-- The sequence view `ApiGateway._prepare_sequence` hands to the
transformer: the per-sender session message list (created empty when the
sender has no session), after the length-cap pop. -/
def prepare_sequence (cfg : GatewayConfig)
    (active_sessions : List (String × List Evidence)) (sender_id : String) :
    List Evidence :=
  let messages := (lookup active_sessions sender_id).getD []
  if messages.length > cfg.max_sequence_length then messages.drop 1 else messages

/-- `ApiGateway._process_single_message`, parameterized by the three scoring
oracles (the spec treats detector, analyzer and sequence transform as
opaque scoring oracles).  On the two early-return paths the Python code
passes the DetectionResult dataclass to `_create_response`, which subscripts
it and raises TypeError; those paths are `Except.error`. -/
def process_single_message (cfg : GatewayConfig)
    (detector : V2IMessage → DetectionResult)
    (analyzer : DetectionResult → V2IMessage → AnalysisResult)
    (transformer : String → List Evidence → Evidence)
    (active_sessions : List (String × List Evidence)) (message : V2IMessage) :
    Except String DetectionResponse :=
  let detection_result := detector message
  if detection_result.confidence > cfg.analysis_threshold then
    let analysis_result := analyzer detection_result message
    if analysis_result.anomaly_score > cfg.transform_threshold then
      let sequence := prepare_sequence cfg active_sessions message.sender_id
      let transform_result := transformer message.sender_id sequence
      let final_result := combine_results cfg detection_result analysis_result
        transform_result
      .ok (create_response cfg final_result)
    else .error "TypeError: DetectionResult object is not subscriptable"
  else .error "TypeError: DetectionResult object is not subscriptable"

/-- C8: when the detector confidence exceeds the analysis threshold and the
anomaly score exceeds the transform threshold, all three stages run and the
response is built from the combined result, whose fields satisfy:
threat_detected iff the detector flagged a threat or the anomaly score
exceeds the threat threshold; confidence is the maximum of detector
confidence and anomaly score; threat_type is the detector threat type when
present (a non-empty string, per Python truthiness) and otherwise the
analyzer anomaly type; and the evidence bundle holds exactly the outputs of
the three stages that ran. -/
theorem c8_combine_results (cfg : GatewayConfig)
    (detector : V2IMessage → DetectionResult)
    (analyzer : DetectionResult → V2IMessage → AnalysisResult)
    (transformer : String → List Evidence → Evidence)
    (active_sessions : List (String × List Evidence)) (message : V2IMessage)
    (h1 : (detector message).confidence > cfg.analysis_threshold)
    (h2 : (analyzer (detector message) message).anomaly_score > cfg.transform_threshold) :
    process_single_message cfg detector analyzer transformer active_sessions message =
      Except.ok (create_response cfg (combine_results cfg (detector message)
        (analyzer (detector message) message)
        (transformer message.sender_id
          (prepare_sequence cfg active_sessions message.sender_id)))) ∧
    ((combine_results cfg (detector message) (analyzer (detector message) message)
        (transformer message.sender_id
          (prepare_sequence cfg active_sessions message.sender_id))).threat_detected = true ↔
      ((detector message).threat_detected = true ∨
        (analyzer (detector message) message).anomaly_score > cfg.threat_threshold)) ∧
    (combine_results cfg (detector message) (analyzer (detector message) message)
        (transformer message.sender_id
          (prepare_sequence cfg active_sessions message.sender_id))).confidence =
      max (detector message).confidence (analyzer (detector message) message).anomaly_score ∧
    (∀ s : String, (detector message).threat_type = some s → s ≠ "" →
      (combine_results cfg (detector message) (analyzer (detector message) message)
        (transformer message.sender_id
          (prepare_sequence cfg active_sessions message.sender_id))).threat_type = some s) ∧
    (((detector message).threat_type = none ∨ (detector message).threat_type = some "") →
      (combine_results cfg (detector message) (analyzer (detector message) message)
        (transformer message.sender_id
          (prepare_sequence cfg active_sessions message.sender_id))).threat_type =
        (analyzer (detector message) message).anomaly_type) ∧
    (combine_results cfg (detector message) (analyzer (detector message) message)
        (transformer message.sender_id
          (prepare_sequence cfg active_sessions message.sender_id))).evidence =
      { detection := (detector message).evidence
        analysis := (analyzer (detector message) message).context_analysis
        transform := transformer message.sender_id
          (prepare_sequence cfg active_sessions message.sender_id) } := by
  refine ⟨?_, ?_, rfl, ?_, ?_, rfl⟩
  · unfold process_single_message
    rw [if_pos h1, if_pos h2]
  · show ((detector message).threat_detected ||
      decide ((analyzer (detector message) message).anomaly_score >
        cfg.threat_threshold)) = true ↔ _
    simp
  · intro s hs hne
    show pyOrOptStr (detector message).threat_type
      (analyzer (detector message) message).anomaly_type = some s
    rw [hs]
    simp [pyOrOptStr, hne]
  · intro hcase
    show pyOrOptStr (detector message).threat_type
      (analyzer (detector message) message).anomaly_type = _
    rcases hcase with hd | hd <;> rw [hd] <;> simp [pyOrOptStr]

def c8Cfg : GatewayConfig :=
  { analysis_threshold := 1/2, transform_threshold := 1/2, threat_threshold := 1/2,
    max_sequence_length := 10, recommendation_templates := [] }

def c8Det : DetectionResult :=
  { threat_detected := false, confidence := 3/4, threat_type := some "spoofing",
    affected_nodes := ["n1"], evidence := [("det", "d")], recommendation := "" }

def c8Ana : AnalysisResult :=
  { anomaly_score := 9/10, anomaly_type := some "drift", confidence := 9/10,
    context_analysis := [("ctx", "c")] }

def c8Msg : V2IMessage :=
  { message_id := "m1", sender_id := "s1", message_type := "position_update",
    content := [] }

/-- Witness for C8 at concrete thresholds and constant oracles. -/
theorem c8_combine_results_witness :
    c8Det.confidence > c8Cfg.analysis_threshold ∧
    c8Ana.anomaly_score > c8Cfg.transform_threshold ∧
    process_single_message c8Cfg (fun _ => c8Det) (fun _ _ => c8Ana)
        (fun _ _ => [("tr", "t")]) [] c8Msg =
      Except.ok (create_response c8Cfg
        (combine_results c8Cfg c8Det c8Ana [("tr", "t")])) := by
  have hx1 : c8Det.confidence > c8Cfg.analysis_threshold := by
    norm_num [c8Det, c8Cfg]
  have hx2 : c8Ana.anomaly_score > c8Cfg.transform_threshold := by
    norm_num [c8Ana, c8Cfg]
  refine ⟨hx1, hx2, ?_⟩
  exact (c8_combine_results c8Cfg (fun _ => c8Det) (fun _ _ => c8Ana)
    (fun _ _ => [("tr", "t")]) [] c8Msg hx1 hx2).1

/-- `np.clip(x, lo, hi)`: the maximum with the lower bound, then the minimum
with the upper bound. -/
def np_clip (x lo hi : ℚ) : ℚ := min (max x lo) hi

theorem np_clip_eq_clamp (x : ℚ) : np_clip x 0 1 = max 0 (min 1 x) := by
  unfold np_clip
  rcases le_total x 0 with h | h
  · rw [max_eq_right h, min_eq_left zero_le_one, min_eq_right (h.trans zero_le_one),
      max_eq_left h]
  · rcases le_total x 1 with h1 | h1
    · rw [max_eq_left h, min_eq_left h1, min_eq_right h1, max_eq_right h]
    · rw [max_eq_left h, min_eq_right h1, min_eq_left h1, max_eq_right zero_le_one]

/-- `DataAnalyzer._calculate_anomaly_score`, parameterized by the four
sub-score computations (`_calculate_feature_based_score` and the temporal,
spatial and context factor calculations work over numpy arrays and nested
dicts; the spec treats them as scoring oracles).  Float arithmetic is
modelled over the rationals. -/
def calculate_anomaly_score {F T S C : Type}
    (feature_based_score : F → ℚ) (temporal_factor_of : T → ℚ)
    (spatial_factor_of : S → ℚ) (context_factor_of : C → ℚ)
    (features : F) (temporal_patterns : T) (spatial_correlations : S)
    (context : C) : ℚ :=
  let base_score := feature_based_score features
  let temporal_factor := temporal_factor_of temporal_patterns
  let spatial_factor := spatial_factor_of spatial_correlations
  let context_factor := context_factor_of context
  let final_score := 0.4 * base_score + 0.3 * temporal_factor +
    0.2 * spatial_factor + 0.1 * context_factor
  np_clip final_score 0 1

/-- C9: the final anomaly score is the weighted sum
0.4 base + 0.3 temporal + 0.2 spatial + 0.1 context clipped to the unit
interval, and in particular lies within the interval. -/
theorem c9_anomaly_score_formula {F T S C : Type}
    (feature_based_score : F → ℚ) (temporal_factor_of : T → ℚ)
    (spatial_factor_of : S → ℚ) (context_factor_of : C → ℚ)
    (features : F) (temporal_patterns : T) (spatial_correlations : S) (context : C) :
    calculate_anomaly_score feature_based_score temporal_factor_of spatial_factor_of
        context_factor_of features temporal_patterns spatial_correlations context =
      max 0 (min 1 (0.4 * feature_based_score features +
        0.3 * temporal_factor_of temporal_patterns +
        0.2 * spatial_factor_of spatial_correlations +
        0.1 * context_factor_of context)) ∧
    0 ≤ calculate_anomaly_score feature_based_score temporal_factor_of spatial_factor_of
        context_factor_of features temporal_patterns spatial_correlations context ∧
    calculate_anomaly_score feature_based_score temporal_factor_of spatial_factor_of
        context_factor_of features temporal_patterns spatial_correlations context ≤ 1 := by
  refine ⟨np_clip_eq_clamp _, ?_, ?_⟩
  · exact le_min (le_max_right _ _) zero_le_one
  · exact min_le_right _ _
